import Mathlib

/-!
Verification development for the quiz-form scraping program (src/main.py).

The program drives a two-page quiz form and extracts graded results.
We shallowly embed the DOM-facing logic: a page is a tree of elements,
selector queries are executed over that tree in document order, and the
extraction / navigation functions are translated statement by statement
from the Python source.  Fallible element reads (calls that may raise
inside the Python try blocks) are modelled by a `broken` flag on an
element: reading the text of a broken element yields `none`.
-/

/- ## String helpers mirroring the Python primitives -/

/-- Whitespace predicate used by our model of Python `str.strip`. -/
def isWs (c : Char) : Bool := c.isWhitespace

/-- Model of Python `str.strip()`: drop leading and trailing whitespace. -/
def pyStrip (s : String) : String :=
  (((s.toList.dropWhile isWs).reverse.dropWhile isWs).reverse).asString

/-- Tests whether the first list is an initial segment of the second. -/
def isPre : List Char → List Char → Bool
  | [], _ => true
  | _ :: _, [] => false
  | a :: as, b :: bs => a = b && isPre as bs

/-- Tests whether `pat` occurs contiguously inside the second list. -/
def hasSub (pat : List Char) : List Char → Bool
  | [] => isPre pat []
  | c :: cs => isPre pat (c :: cs) || hasSub pat cs

/-- Model of Python `pat in hay` on strings (substring containment). -/
def strContains (hay pat : String) : Bool := hasSub pat.toList hay.toList

/-- Model of Python `str.lower()` (character-wise lowercasing). -/
def strLower (s : String) : String := (s.toList.map Char.toLower).asString

/-- Index of the first occurrence of `c`; returns the length when absent.
Under a containment guard this agrees with Python `str.find`. -/
def findCh (c : Char) : List Char → Nat
  | [] => 0
  | a :: as => if a = c then 0 else findCh c as + 1

/-- Model of Python `str.find` for a single character, guarded use only. -/
def pyFind (s : String) (c : Char) : Nat := findCh c s.toList

/-- Model of the Python slice `s[a:b]` for `0 ≤ a, b` (empty if `b ≤ a`). -/
def pySlice (s : String) (a b : Nat) : String :=
  (((s.toList).drop a).take (b - a)).asString

/-- First-success combinator on optional results. -/
def firstSome {α : Type} (a b : Option α) : Option α :=
  match a with
  | some x => some x
  | none => b

/- ## DOM model -/

/-- A rendered DOM element: tag name, attributes, class list, its own text,
a flag marking that reading this element raises, and child elements in
document order. -/
inductive Element where
  | mk (tag : String) (attrs : List (String × String)) (classes : List String)
       (ownText : String) (broken : Bool) (children : List Element)

def Element.tag : Element → String
  | .mk t _ _ _ _ _ => t

def Element.attrs : Element → List (String × String)
  | .mk _ a _ _ _ _ => a

def Element.classes : Element → List String
  | .mk _ _ c _ _ _ => c

def Element.ownText : Element → String
  | .mk _ _ _ o _ _ => o

def Element.broken : Element → Bool
  | .mk _ _ _ _ b _ => b

def Element.children : Element → List Element
  | .mk _ _ _ _ _ cs => cs

/-- Model of `get_attribute`: first binding of the key, if any. -/
def getAttr (e : Element) (k : String) : Option String :=
  (e.attrs.find? (fun p => p.1 = k)).map (fun p => p.2)

mutual
/-- Rendered text of an element: its own text then its descendants in order. -/
def innerText : Element → String
  | .mk _ _ _ own _ cs => own ++ innerTextL cs
def innerTextL : List Element → String
  | [] => ""
  | e :: es => innerText e ++ innerTextL es
end

/-- Model of a Playwright `inner_text()` call: raises (yields `none`) on a
broken element, otherwise returns the rendered text. -/
def readText (e : Element) : Option String :=
  if e.broken then none else some (innerText e)

/- ## Selector resolution primitive -/

/-- One atomic condition of a query strategy. -/
inductive Atom where
  | tagIs (t : String)
  | clsHas (c : String)
  | attrEq (k v : String)
  | attrHas (k v : String)
  | hasText (s : String)

/-- A compound selector: all atoms must hold on one element. -/
def SelCompound := List Atom

/-- A complex selector: target compound first, then the required ancestor
compounds from innermost outward (descendant combinators). -/
def SelComplex := List SelCompound

/-- A selector group (comma-separated list in the source). -/
def Selector := List SelComplex

def matchesAtom (e : Element) : Atom → Bool
  | .tagIs t => e.tag = t
  | .clsHas c => e.classes.contains c
  | .attrEq k v => getAttr e k = some v
  | .attrHas k v =>
    match getAttr e k with
    | some s => strContains s v
    | none => false
  | .hasText s => strContains (strLower (innerText e)) (strLower s)

def matchesCompound (e : Element) (c : SelCompound) : Bool :=
  c.all (matchesAtom e)

/-- Matches a chain of ancestor compounds against the ancestor stack
(nearest ancestor first). -/
def matchAnc : List Element → List SelCompound → Bool
  | _, [] => true
  | [], _ :: _ => false
  | a :: anc, c :: cs => (matchesCompound a c && matchAnc anc cs) || matchAnc anc (c :: cs)

def matchesSelComplex (anc : List Element) (e : Element) : SelComplex → Bool
  | [] => false
  | t :: rest => matchesCompound e t && matchAnc anc rest

def matchesSel (sel : Selector) (anc : List Element) (e : Element) : Bool :=
  sel.any (matchesSelComplex anc e)

mutual
/-- Collects matches of `sel` in the subtree rooted at `e` (including `e`),
in document order; `anc` is the ancestor stack of `e`, nearest first. -/
def qsaEl (sel : Selector) (anc : List Element) : Element → List Element
  | .mk t a c o b cs =>
    let e := Element.mk t a c o b cs
    (if matchesSel sel anc e then [e] else []) ++ qsaL sel (e :: anc) cs
/-- Collects matches of `sel` in a forest, in document order. -/
def qsaL (sel : Selector) (anc : List Element) : List Element → List Element
  | [] => []
  | e :: es => qsaEl sel anc e ++ qsaL sel anc es
end

/-- Model of `query_selector_all`: all matching proper descendants of the
scope, in document order. -/
def querySelectorAll (scope : Element) (sel : Selector) : List Element :=
  qsaL sel [scope] scope.children

/-- Model of `query_selector`: the first match in document order, if any. -/
def querySelector (scope : Element) (sel : Selector) : Option Element :=
  (querySelectorAll scope sel).head?

/- ## Selector constants from the source -/

/-- Selector from main.py line 37 (exam title header). -/
def selHeaderTitle : Selector :=
  [[[.tagIs "div", .clsHas "freebirdFormviewerViewHeaderTitle"]],
   [[.tagIs "div", .clsHas "freebirdFormviewerViewHeaderTitleRow"]]]

/-- Selector from main.py line 42 (h1 fallback for the title). -/
def selH1 : Selector := [[[.tagIs "h1"]]]

/-- Selector from main.py lines 55 and 211 (question block containers). -/
def selQuestionItem : Selector :=
  [[[.tagIs "div", .clsHas "freebirdFormviewerViewItemsItemItem"]]]

/-- Selector from main.py lines 58 and 213 (question block fallback). -/
def selRoleListitem : Selector := [[[.tagIs "div", .attrEq "role" "listitem"]]]

/-- Selector from main.py line 64 (question prompt). -/
def selItemTitle : Selector :=
  [[[.tagIs "div", .clsHas "freebirdFormviewerViewItemsItemItemTitle"]],
   [[.tagIs "div", .attrEq "role" "heading"]]]

/-- Selector from main.py line 68 (choice elements; the middle complex is
the descendant query for labels under radio divs). -/
def selChoice : Selector :=
  [[[.tagIs "div", .clsHas "freebirdFormviewerViewItemsItemItemChoice"]],
   [[.tagIs "label"], [.tagIs "div", .attrEq "role" "radio"]],
   [[.tagIs "div", .attrEq "role" "radio"]]]

/-- Selector from main.py line 76 (label fallback for choices). -/
def selLabel : Selector := [[[.tagIs "label"]]]

/-- Selector from main.py line 86 (accessible-label correctness marker). -/
def selAriaCorrect : Selector :=
  [[[.attrHas "aria-label" "correct"]], [[.attrHas "aria-label" "صحيح"]]]

/-- Selector from main.py line 91 (graphical glyphs). -/
def selSvg : Selector := [[[.tagIs "svg"]]]

/-- Selector from main.py line 94 (glyph path carrying the fill). -/
def selPath : Selector := [[[.tagIs "path"]]]

/-- Selector from main.py line 108 (correct-answer style class). -/
def selCorrectClass : Selector :=
  [[[.clsHas "freebirdFormviewerViewItemsItemCorrectAnswer"]]]

/-- Selector from main.py line 219 (answer radio controls). -/
def selRoleRadio : Selector := [[[.tagIs "div", .attrEq "role" "radio"]]]

/-- Selector from main.py line 222 (input radio fallback). -/
def selInputRadio : Selector := [[[.tagIs "input", .attrEq "type" "radio"]]]

/-- Selector from main.py line 241 (submission control). -/
def selSubmitBtn : Selector :=
  [[[.tagIs "div", .attrEq "role" "button", .attrEq "jsname" "V67aGc"]],
   [[.tagIs "div", .attrEq "role" "button", .hasText "إرسال"]]]

/-- Selector from main.py lines 192 and 243 (generic button divs). -/
def selRoleButton : Selector := [[[.tagIs "div", .attrEq "role" "button"]]]

/-- Selector from main.py line 261 (reveal-results control, strategy 1). -/
def selViewScore1 : Selector :=
  [[[.tagIs "div", .attrEq "role" "button", .hasText "عرض النتيجة"]]]

/-- Selector from main.py line 264 (reveal-results control, strategy 2). -/
def selViewScore2 : Selector := [[[.tagIs "button", .hasText "عرض النتيجة"]]]

/-- Selector from main.py line 267 (reveal-results control, strategy 3 scan). -/
def selViewScore3 : Selector :=
  [[[.tagIs "div", .attrEq "role" "button"]], [[.tagIs "button"]],
   [[.tagIs "input", .attrEq "type" "button"]]]

/- ## Extractor (extract_exam_data, main.py lines 23 to 131) -/

/-- Output record schema (main.py lines 117 to 127). -/
structure Record where
  question_number : Nat
  question : String
  type : String
  choices : List String
  answer : String
  exam : String
  category : String
deriving DecidableEq

/-- Title extraction, main.py lines 33 to 46: header query, h1 fallback,
any raise caught leaving the empty title. -/
def getExamTitle (page : Element) : String :=
  match querySelector page selHeaderTitle with
  | some el => ((readText el).map pyStrip).getD ""
  | none =>
    match querySelector page selH1 with
    | some el => ((readText el).map pyStrip).getD ""
    | none => ""

/-- Category derivation, main.py lines 48 to 51. -/
def getCategory (examTitle : String) : String :=
  if strContains examTitle "(" ∧ strContains examTitle ")" then
    pyStrip (pySlice examTitle (pyFind examTitle '(' + 1) (pyFind examTitle ')'))
  else ""

/-- Question block detection, main.py lines 55 to 58 (also 211 to 213). -/
def questionBlocks (page : Element) : List Element :=
  let qs := querySelectorAll page selQuestionItem
  if qs.isEmpty then querySelectorAll page selRoleListitem else qs

/-- Reads the texts of a list of elements in order; a raise aborts. -/
def readTexts : List Element → Option (List String)
  | [] => some []
  | e :: es =>
    match readText e, readTexts es with
    | some t, some ts => some (t :: ts)
    | _, _ => none

/-- Choice collection loop, main.py lines 69 to 73 (and 77 to 80):
strip each text and keep the non-empty ones, in order. -/
def collectTexts (es : List Element) : Option (List String) :=
  (readTexts es).map (fun ts => (ts.map pyStrip).filter (fun s => s ≠ ""))

/-- Accent-color test, main.py line 97. -/
def fillMatches (f : String) : Bool :=
  f ≠ "" && (strContains f "#34A853" || strContains (strLower f) "green")

/-- One iteration of the glyph loop, main.py lines 93 to 104: first path
descendant, fill test, then the nearest label ancestor (or the parent);
`some` means the loop breaks with that stripped text, `none` means it
continues (this includes a raise while reading, which is caught). -/
def trySvg (anc : List Element) (svg : Element) : Option String :=
  match querySelector svg selPath with
  | none => none
  | some p =>
    match getAttr p "fill" with
    | none => none
    | some f =>
      if fillMatches f then
        let parent :=
          match anc.find? (fun a => a.tag = "label") with
          | some lab => lab
          | none => anc.headD svg
        (readText parent).map pyStrip
      else none

mutual
/-- Scans the subtree rooted at an element for the first glyph that breaks
the loop of main.py lines 92 to 104, in document order. -/
def scanEl (anc : List Element) : Element → Option String
  | .mk t a c o b cs =>
    let e := Element.mk t a c o b cs
    firstSome (if e.tag = "svg" then trySvg anc e else none) (scanL (e :: anc) cs)
/-- Scans a forest for the first glyph that breaks the loop. -/
def scanL (anc : List Element) : List Element → Option String
  | [] => none
  | e :: es => firstSome (scanEl anc e) (scanL anc es)
end

/-- The whole glyph loop of main.py lines 91 to 104 over the block `q`:
the answer set by the first breaking glyph, or the empty string. -/
def svgScan (q : Element) : String := (scanL [q] q.children).getD ""

/-- First answer strategy pair, main.py lines 85 to 104: accessible-label
marker when resolved (its read may raise), else the glyph scan. -/
def answerStep1 (q : Element) : Option String :=
  match querySelector q selAriaCorrect with
  | some el => (readText el).map pyStrip
  | none => some (svgScan q)

/-- Third answer strategy, main.py lines 107 to 110: when the answer is
still empty, the correct-answer style class (its read may raise). -/
def answerStep2 (q : Element) (a0 : String) : Option String :=
  if a0 = "" then
    match querySelector q selCorrectClass with
    | some el => (readText el).map pyStrip
    | none => some a0
  else some a0

/-- Correct-answer detection, main.py lines 84 to 115: accessible-label
marker, else glyph scan; then the correct-answer class when still empty;
the final fallback of lines 113 to 115 keeps the empty string. -/
def getAnswer (q : Element) (choices : List String) : Option String :=
  match answerStep1 q with
  | none => none
  | some a0 =>
    match answerStep2 q a0 with
    | none => none
    | some a1 => some (if a1 = "" ∧ choices ≠ [] then "" else a1)

/-- Prompt read, main.py lines 64 to 65. -/
def readQText (q : Element) : Option String :=
  match querySelector q selItemTitle with
  | some el => (readText el).map pyStrip
  | none => some ""

/-- Choice collection with label fallback, main.py lines 68 to 80. -/
def readChoices (q : Element) : Option (List String) :=
  match collectTexts (querySelectorAll q selChoice) with
  | none => none
  | some cs1 =>
    if cs1 = [] then collectTexts (querySelectorAll q selLabel) else some cs1

/-- Body of the per-block try block, main.py lines 62 to 115: prompt,
choices with the label fallback, then the answer; `none` when any
uncaught read raises, in which case the block is skipped. -/
def readBlock (q : Element) : Option (String × List String × String) :=
  match readQText q with
  | none => none
  | some qText =>
    match readChoices q with
    | none => none
    | some choices =>
      match getAnswer q choices with
      | none => none
      | some ans => some (qText, choices, ans)

/-- One loop iteration of main.py lines 61 to 129 for the block at
1-based index `i`: the appended record, or `none` when the block raised. -/
def extractBlock (i : Nat) (examTitle category : String) (q : Element) : Option Record :=
  (readBlock q).map (fun r => ⟨i, r.1, "اختيار", r.2.1, r.2.2, examTitle, category⟩)

/-- Model of extract_exam_data, main.py lines 23 to 131. -/
def extract_exam_data (page : Element) : List Record :=
  let examTitle := getExamTitle page
  let category := getCategory examTitle
  (questionBlocks page).enum.filterMap
    (fun jq => extractBlock (jq.1 + 1) examTitle category jq.2)

/- ## Navigator models -/

/-- Radio controls of one block, main.py lines 219 to 222. -/
def radiosOf (q : Element) : List Element :=
  let radios := querySelectorAll q selRoleRadio
  if radios.isEmpty then querySelectorAll q selInputRadio else radios

/-- Observable steps of the answer-selection stage; `errorSecondPage` is
the outer catch of main.py line 253 ending the function early. -/
inductive NavAction where
  | selectedAnswer (q : Element)
  | warnedNoRadios (q : Element)
  | clickedSubmit
  | warnedNoSubmit
  | errorSecondPage

/-- The fallback text scan over candidate buttons, main.py lines 243 to
247: each iteration reads the button text with a fallible call; `none`
models a raise escaping to the outer catch of line 253, `some r` the
completed scan with its result. -/
def scanSubmit : List Element → Option (Option Element)
  | [] => some none
  | b :: bs =>
    match readText b with
    | none => none
    | some txt => if strContains txt "إرسال" then some (some b) else scanSubmit bs

/-- Submission control lookup, main.py lines 241 to 247: the structural
and engine-side text query first, else the fallible Python-side text scan;
`none` means the scan raised. -/
def findSubmit (page : Element) : Option (Option Element) :=
  match querySelector page selSubmitBtn with
  | some b => some (some b)
  | none => scanSubmit (querySelectorAll page selRoleButton)

/-- Model of fill_second_page, main.py lines 206 to 254, as the list of
performed steps: early return when no blocks are found; otherwise one
step per block (a selection, with its internal three-tier click fallback
never raising, or a logged warning when no radios resolve) followed by
the submission step — whose fallback text scan may itself raise into the
outer catch of line 253, ending the function with no activation. -/
def fill_second_page (page : Element) : List NavAction :=
  let questions := questionBlocks page
  if questions.isEmpty then []
  else
    (questions.map (fun q =>
      if (radiosOf q).isEmpty then NavAction.warnedNoRadios q else NavAction.selectedAnswer q))
    ++ [match findSubmit page with
        | some (some _) => NavAction.clickedSubmit
        | some none => NavAction.warnedNoSubmit
        | none => NavAction.errorSecondPage]

/-- Model of click_view_score, main.py lines 257 to 281: three fallback
strategies; `true` when a control was resolved and clicked. -/
def click_view_score (page : Element) : Bool :=
  match querySelector page selViewScore1 with
  | some _ => true
  | none =>
    match querySelector page selViewScore2 with
    | some _ => true
    | none =>
      match (querySelectorAll page selViewScore3).find?
          (fun b => pyStrip (innerText b) = "عرض النتيجة") with
      | some _ => true
      | none => false

/-- Terminal outcome reported to the requester. -/
inductive ScrapeOutcome where
  | failureNotice
  | successDocument (data : List Record)
deriving DecidableEq

/-- Result of one scrape invocation: the reported outcome and whether the
artifact file exam.json was written. -/
structure ScrapeResult where
  outcome : ScrapeOutcome
  fileWritten : Bool
deriving DecidableEq

/-- Model of the scrape flow, main.py lines 296 to 359: `formLoads` stands
for the early navigation and form wait succeeding, and `quiesces` for the
uncaught network-quiescence wait after the reveal click succeeding (a raise
from either is caught only at the top level and reported as the failure
notice); the reveal-results click gates extraction, empty extraction
fails, and only the success path writes and sends the artifact. -/
def scrape_command (formLoads quiesces : Bool) (page : Element) : ScrapeResult :=
  if formLoads = false then ⟨.failureNotice, false⟩
  else if click_view_score page = false then ⟨.failureNotice, false⟩
  else if quiesces = false then ⟨.failureNotice, false⟩
  else
    let exam_data := extract_exam_data page
    if exam_data = [] then ⟨.failureNotice, false⟩
    else ⟨.successDocument exam_data, true⟩

/- ## JSON artifact model (main.py lines 344 to 346) -/

/-- JSON value tree. -/
inductive Json where
  | str (s : String)
  | num (n : Nat)
  | arr (xs : List Json)
  | obj (fields : List (String × Json))

/-- Serialization of one record, with the field order of main.py
lines 117 to 127. -/
def encodeRecord (r : Record) : Json :=
  .obj [("question_number", .num r.question_number),
        ("question", .str r.question),
        ("type", .str r.type),
        ("choices", .arr (r.choices.map Json.str)),
        ("answer", .str r.answer),
        ("exam", .str r.exam),
        ("category", .str r.category)]

/-- Serialization of the whole ExamResult as a JSON array. -/
def encodeExam (rs : List Record) : Json := .arr (rs.map encodeRecord)

def getField (fs : List (String × Json)) (k : String) : Option Json :=
  (fs.find? (fun p => p.1 = k)).map (fun p => p.2)

def asStr : Json → Option String
  | .str s => some s
  | _ => none

def asNum : Json → Option Nat
  | .num n => some n
  | _ => none

/-- Parses a list of JSON strings, failing on any other shape. -/
def decStrList : List Json → Option (List String)
  | [] => some []
  | j :: js =>
    match asStr j, decStrList js with
    | some s, some ss => some (s :: ss)
    | _, _ => none

def asStrList : Json → Option (List String)
  | .arr xs => decStrList xs
  | _ => none

/-- Parses one record back from its JSON object form. -/
def decodeRecord : Json → Option Record
  | .obj fs =>
    match (getField fs "question_number").bind asNum,
          (getField fs "question").bind asStr,
          (getField fs "type").bind asStr,
          (getField fs "choices").bind asStrList,
          (getField fs "answer").bind asStr,
          (getField fs "exam").bind asStr,
          (getField fs "category").bind asStr with
    | some qn, some q, some ty, some ch, some a, some ex, some cat =>
      some ⟨qn, q, ty, ch, a, ex, cat⟩
    | _, _, _, _, _, _, _ => none
  | _ => none

/-- Parses a list of JSON objects as records, failing on any bad entry. -/
def decRecList : List Json → Option (List Record)
  | [] => some []
  | j :: js =>
    match decodeRecord j, decRecList js with
    | some r, some rs => some (r :: rs)
    | _, _ => none

/-- Parses a whole ExamResult back from its JSON array form. -/
def decodeExam : Json → Option (List Record)
  | .arr xs => decRecList xs
  | _ => none

/- ## Definition following the words of the spec for the category claim -/

/-- Modelled from the spec: the category as the spec sentence states it,
the substring strictly between the first open parenthesis and the first
closing parenthesis following it, empty when either is absent.  Used only
to compare against `getCategory`, which is translated from the source. -/
def specCategory (t : String) : String :=
  let l := t.toList
  if l.contains '(' then
    let rest := l.drop (findCh '(' l + 1)
    if rest.contains ')' then (rest.take (findCh ')' rest)).asString else ""
  else ""

/- ## Sanity example -/

example : pyStrip "  ab " = "ab" := rfl

example :
    getCategory "الاختبار الأول (التناظر اللفظي)" = "التناظر اللفظي" := rfl

def tOpt (s : String) : Element := .mk "div" [("role", "radio")] [] s false []

def tTitle : Element := .mk "div" [] ["freebirdFormviewerViewItemsItemItemTitle"] "Q1" false []

def tBlock : Element := .mk "div" [("role", "listitem")] [] "" false [tTitle, tOpt "A", tOpt "B"]

def tHeader : Element := .mk "div" [] ["freebirdFormviewerViewHeaderTitle"] "Exam One (Verbal)" false []

def tPage : Element := .mk "body" [] [] "" false [tHeader, tBlock]

example : extract_exam_data tPage =
    [⟨1, "Q1", "اختيار", ["A", "B"], "", "Exam One (Verbal)", "Verbal"⟩] := rfl

example : click_view_score tPage = false := rfl

example : fill_second_page tBlock = [] := rfl

/- ## Helper lemmas about the extraction loop -/

/-- A record emitted for index `i` carries `i` as its ordinal and the
run-level title and category unchanged. -/
theorem extractBlock_eq_some {i : Nat} {t c : String} {q : Element} {r : Record}
    (h : extractBlock i t c q = some r) :
    r.question_number = i ∧ r.exam = t ∧ r.category = c := by
  unfold extractBlock at h
  obtain ⟨v, _, rfl⟩ := Option.map_eq_some'.mp h
  exact ⟨rfl, rfl, rfl⟩

/-- Every ordinal in the suffix of the loop starting at index `k` exceeds `k`. -/
theorem qn_lt_of_mem_aux (t c : String) : ∀ (l : List Element) (k m : Nat),
    m ∈ ((l.enumFrom k).filterMap
          (fun jq => extractBlock (jq.1 + 1) t c jq.2)).map Record.question_number →
    k < m := by
  intro l
  induction l with
  | nil => intro k m hm; simp [List.enumFrom] at hm
  | cons e rest ih =>
    intro k m hm
    rw [show List.enumFrom k (e :: rest) = (k, e) :: List.enumFrom (k + 1) rest from rfl] at hm
    cases hf : extractBlock (k + 1) t c e with
    | none =>
      simp only [List.filterMap_cons, hf] at hm
      exact Nat.lt_of_succ_lt (ih (k + 1) m hm)
    | some r =>
      simp only [List.filterMap_cons, hf, List.map_cons] at hm
      rcases List.mem_cons.mp hm with h | h
      · have hq := (extractBlock_eq_some hf).1
        omega
      · exact Nat.lt_of_succ_lt (ih (k + 1) m h)

/-- The ordinals of the records emitted by the loop are strictly increasing. -/
theorem qn_pairwise_aux (t c : String) : ∀ (l : List Element) (k : Nat),
    List.Pairwise (· < ·)
      (((l.enumFrom k).filterMap
          (fun jq => extractBlock (jq.1 + 1) t c jq.2)).map Record.question_number) := by
  intro l
  induction l with
  | nil => intro k; simp [List.enumFrom]
  | cons e rest ih =>
    intro k
    rw [show List.enumFrom k (e :: rest) = (k, e) :: List.enumFrom (k + 1) rest from rfl]
    cases hf : extractBlock (k + 1) t c e with
    | none =>
      simp only [List.filterMap_cons, hf]
      exact ih (k + 1)
    | some r =>
      simp only [List.filterMap_cons, hf, List.map_cons]
      refine List.Pairwise.cons ?_ (ih (k + 1))
      intro m hm
      have hk := qn_lt_of_mem_aux t c rest (k + 1) m hm
      have hq := (extractBlock_eq_some hf).1
      omega

/-- C10: for every results page, the question_number values of the records
actually emitted by the extractor are strictly increasing in output order,
even when some question blocks are skipped due to per-block exceptions
(each record keeps the enumeration index of its source block). -/
theorem C10_emitted_ordinals_strictly_increasing (page : Element) :
    List.Pairwise (· < ·)
      ((extract_exam_data page).map Record.question_number) := by
  have h := qn_pairwise_aux (getExamTitle page)
    (getCategory (getExamTitle page)) (questionBlocks page) 0
  simpa [extract_exam_data, List.enum] using h

/-- When every block in the suffix reads successfully, the loop emits the
contiguous ordinals starting right after `k`. -/
theorem extract_all_aux (t c : String) : ∀ (l : List Element) (k : Nat),
    (∀ q ∈ l, (readBlock q).isSome) →
    ((l.enumFrom k).filterMap
        (fun jq => extractBlock (jq.1 + 1) t c jq.2)).map Record.question_number
      = List.range' (k + 1) l.length := by
  intro l
  induction l with
  | nil => intro k _; simp [List.enumFrom]
  | cons e rest ih =>
    intro k h
    have he : (readBlock e).isSome := h e (List.mem_cons_self _ _)
    obtain ⟨v, hv⟩ := Option.isSome_iff_exists.mp he
    have hf : extractBlock (k + 1) t c e
        = some ⟨k + 1, v.1, "اختيار", v.2.1, v.2.2, t, c⟩ := by
      unfold extractBlock; rw [hv]; rfl
    rw [show List.enumFrom k (e :: rest) = (k, e) :: List.enumFrom (k + 1) rest from rfl]
    simp only [List.filterMap_cons, hf, List.map_cons]
    rw [ih (k + 1) (fun q hq => h q (List.mem_cons_of_mem _ hq))]
    rfl

/-- A results page whose first question block raises during read: the title
element of the first block is broken. -/
def cxTitleBroken : Element := .mk "div" [("role", "heading")] [] "Q1" true []

def cxBlockBad : Element :=
  .mk "div" [("role", "listitem")] [] "" false [cxTitleBroken, tOpt "A"]

def cxPage : Element := .mk "body" [] [] "" false [cxBlockBad, tBlock]

/-- C1 counterexample: on a page with two detected question blocks whose
first block throws during read, the emitted ordinals are [2], not the
contiguous sequence 1..2 claimed for the number of detected blocks. -/
theorem C1_counterexample :
    (extract_exam_data cxPage).map Record.question_number = [2] ∧
    ¬ ((extract_exam_data cxPage).map Record.question_number
        = List.range' 1 (questionBlocks cxPage).length) := by
  constructor
  · rfl
  · intro h
    have : ([2] : List Nat) = [1, 2] := by
      calc ([2] : List Nat)
          = (extract_exam_data cxPage).map Record.question_number := rfl
        _ = List.range' 1 (questionBlocks cxPage).length := h
        _ = [1, 2] := rfl
    simp at this

/-- C1 (amended): when every detected question block reads without raising,
the emitted records carry the contiguous ordinals 1..N, N the number of
detected question blocks; a block that raises is omitted and each emitted
record keeps the enumeration index of its own source block, so ordinals
stay strictly increasing but skip the indices of omitted blocks. -/
theorem C1_ordinals_contiguous_when_no_block_raises (page : Element)
    (h : (questionBlocks page).all (fun q => (readBlock q).isSome) = true) :
    (extract_exam_data page).map Record.question_number
      = List.range' 1 (questionBlocks page).length := by
  have hall := List.all_eq_true.mp h
  have haux := extract_all_aux (getExamTitle page)
    (getCategory (getExamTitle page)) (questionBlocks page) 0
    (fun q hq => by simpa using hall q hq)
  simpa [extract_exam_data, List.enum] using haux

/-- C1 witness: on a concrete well-formed page the amended claim applies. -/
theorem C1_witness :
    (extract_exam_data tPage).map Record.question_number
      = List.range' 1 (questionBlocks tPage).length :=
  C1_ordinals_contiguous_when_no_block_raises tPage (by rfl)

/- ## C9: run-level fields are uniform across records -/

/-- Every emitted record carries the run-level title and derived category. -/
theorem mem_extract_fields {page : Element} {r : Record}
    (h : r ∈ extract_exam_data page) :
    r.exam = getExamTitle page ∧ r.category = getCategory (getExamTitle page) := by
  simp only [extract_exam_data] at h
  rw [List.mem_filterMap] at h
  obtain ⟨jq, _, hf⟩ := h
  exact ⟨(extractBlock_eq_some hf).2.1, (extractBlock_eq_some hf).2.2⟩

/-- C9: within one ExamResult, every record carries the same examTitle
(exam) and the same examCategory (category) values: both are computed once
per run before the per-block loop and copied unchanged onto every record. -/
theorem C9_exam_and_category_uniform (page : Element) (r1 r2 : Record)
    (h1 : r1 ∈ extract_exam_data page) (h2 : r2 ∈ extract_exam_data page) :
    r1.exam = r2.exam ∧ r1.category = r2.category := by
  have a1 := mem_extract_fields h1
  have a2 := mem_extract_fields h2
  exact ⟨a1.1.trans a2.1.symm, a1.2.trans a2.2.symm⟩

/-- A page with two well-formed question blocks. -/
def w9Page : Element := .mk "body" [] [] "" false [tHeader, tBlock, tBlock]

/-- C9 witness: the two records of a concrete two-block page agree on the
exam and category fields. -/
theorem C9_witness :
    (⟨1, "Q1", "اختيار", ["A", "B"], "", "Exam One (Verbal)", "Verbal"⟩ : Record).exam
        = (⟨2, "Q1", "اختيار", ["A", "B"], "", "Exam One (Verbal)", "Verbal"⟩ : Record).exam
      ∧ (⟨1, "Q1", "اختيار", ["A", "B"], "", "Exam One (Verbal)", "Verbal"⟩ : Record).category
        = (⟨2, "Q1", "اختيار", ["A", "B"], "", "Exam One (Verbal)", "Verbal"⟩ : Record).category :=
  C9_exam_and_category_uniform w9Page _ _ (by decide) (by decide)

/- ## C2: category between the parentheses -/

theorem isPre_append (p l : List Char) : isPre p (p ++ l) = true := by
  induction p with
  | nil => rfl
  | cons a as ih => simp [isPre, ih]

theorem hasSub_refl_append (p l : List Char) : hasSub p (p ++ l) = true := by
  cases p with
  | nil => cases l <;> simp [hasSub, isPre]
  | cons a as =>
    have h : isPre (a :: as) (a :: (as ++ l)) = true := isPre_append (a :: as) l
    simp [hasSub, h]

theorem hasSub_cons (p : List Char) (c : Char) (l : List Char)
    (h : hasSub p l = true) : hasSub p (c :: l) = true := by
  simp [hasSub, h]

theorem hasSub_append_left (p l1 l2 : List Char) (h : hasSub p l2 = true) :
    hasSub p (l1 ++ l2) = true := by
  induction l1 with
  | nil => simpa
  | cons a as ih => exact hasSub_cons _ _ _ ih

theorem findCh_append_of_not_mem (c : Char) (l1 l2 : List Char) (h : c ∉ l1) :
    findCh c (l1 ++ l2) = l1.length + findCh c l2 := by
  induction l1 with
  | nil => simp
  | cons a as ih =>
    simp only [List.mem_cons, not_or] at h
    have ha : ¬ (a = c) := fun hac => h.1 hac.symm
    rw [List.cons_append]
    show (if a = c then 0 else findCh c (as ++ l2) + 1) = (a :: as).length + findCh c l2
    rw [if_neg ha, ih h.2]
    simp only [List.length_cons]
    omega

theorem asString_toList (s : String) : s.toList.asString = s := rfl

/-- C2 counterexample: the code derives the category from the first closing
parenthesis of the whole title (empty when it precedes the opening one) and
strips surrounding whitespace, so it differs from the claimed substring
strictly between the first opening parenthesis and the first closing
parenthesis after it. -/
theorem C2_counterexample :
    (specCategory ") (bc)" = "bc" ∧ getCategory ") (bc)" = ""
      ∧ getCategory ") (bc)" ≠ specCategory ") (bc)")
    ∧ (specCategory "( x )" = " x " ∧ getCategory "( x )" = "x"
      ∧ getCategory "( x )" ≠ specCategory "( x )") := by
  decide

/-- C2 (amended): when the title decomposes as pre ++ "(" ++ mid ++ ")" ++
post with no parenthesis of either kind in pre and no closing parenthesis
in mid — that is, the first opening parenthesis is at the end of pre, the
first closing parenthesis of the whole title ends mid, and it comes after
the opening one — the derived category is mid stripped of surrounding
whitespace.  (When the first closing parenthesis of the title precedes its
first opening parenthesis the code yields the empty string, and when either
character is absent the if guard yields the empty string by definition.) -/
theorem C2_category_between_first_parens (pre mid post : String)
    (h1 : '(' ∉ pre.toList) (h2 : ')' ∉ pre.toList) (h3 : ')' ∉ mid.toList) :
    getCategory (pre ++ "(" ++ mid ++ ")" ++ post) = pyStrip mid := by
  have hT : (pre ++ "(" ++ mid ++ ")" ++ post).toList
      = pre.toList ++ ('(' :: (mid.toList ++ (')' :: post.toList))) := by
    simp [String.toList, String.data_append]
  have hc1 : strContains (pre ++ "(" ++ mid ++ ")" ++ post) "(" = true := by
    unfold strContains
    rw [hT]
    exact hasSub_append_left _ _ _ (hasSub_refl_append ['('] _)
  have hc2 : strContains (pre ++ "(" ++ mid ++ ")" ++ post) ")" = true := by
    unfold strContains
    rw [hT, show pre.toList ++ ('(' :: (mid.toList ++ (')' :: post.toList)))
        = (pre.toList ++ '(' :: mid.toList) ++ (')' :: post.toList) by simp]
    exact hasSub_append_left _ _ _ (hasSub_refl_append [')'] _)
  have hfind1 : pyFind (pre ++ "(" ++ mid ++ ")" ++ post) '(' = pre.toList.length := by
    unfold pyFind
    rw [hT, findCh_append_of_not_mem _ _ _ h1]
    simp [findCh]
  have hfind2 : pyFind (pre ++ "(" ++ mid ++ ")" ++ post) ')'
      = pre.toList.length + 1 + mid.toList.length := by
    unfold pyFind
    rw [hT, show pre.toList ++ ('(' :: (mid.toList ++ (')' :: post.toList)))
        = (pre.toList ++ '(' :: mid.toList) ++ (')' :: post.toList) by simp]
    have hnm : ')' ∉ pre.toList ++ '(' :: mid.toList := by
      simp only [List.mem_append, List.mem_cons, not_or]
      exact ⟨h2, by decide, h3⟩
    rw [findCh_append_of_not_mem _ _ _ hnm]
    simp [findCh]
    omega
  unfold getCategory
  rw [if_pos ⟨hc1, hc2⟩, hfind1, hfind2]
  unfold pySlice
  have hdrop : (pre ++ "(" ++ mid ++ ")" ++ post).toList.drop (pre.toList.length + 1)
      = mid.toList ++ ')' :: post.toList := by
    rw [hT, show pre.toList ++ ('(' :: (mid.toList ++ (')' :: post.toList)))
        = (pre.toList ++ ['(']) ++ (mid.toList ++ ')' :: post.toList) by simp]
    have := List.drop_left (pre.toList ++ ['(']) (mid.toList ++ ')' :: post.toList)
    simpa using this
  rw [hdrop, show pre.toList.length + 1 + mid.toList.length - (pre.toList.length + 1)
      = mid.toList.length by omega]
  rw [List.take_left, asString_toList]

/-- C2 witness: a concrete decomposed title is mapped to its stripped
parenthesized segment. -/
theorem C2_witness :
    getCategory ("Exam One " ++ "(" ++ "Verbal Analogy" ++ ")" ++ "")
      = pyStrip "Verbal Analogy" :=
  C2_category_between_first_parens "Exam One " "Verbal Analogy" ""
    (by decide) (by decide) (by decide)

/- ## C4: missing reveal-results control is fatal -/

/-- C4: if the results-reveal control cannot be resolved by any of its
three fallback strategies, the flow halts with the terminal user-visible
failure outcome and the serialized artifact file is never produced. -/
theorem C4_reveal_control_missing_is_fatal (formLoads quiesces : Bool) (page : Element)
    (h1 : querySelector page selViewScore1 = none)
    (h2 : querySelector page selViewScore2 = none)
    (h3 : ∀ b ∈ querySelectorAll page selViewScore3,
      pyStrip (innerText b) ≠ "عرض النتيجة") :
    scrape_command formLoads quiesces page = ⟨.failureNotice, false⟩ := by
  have hc : click_view_score page = false := by
    unfold click_view_score
    rw [h1, h2]
    cases hfind : (querySelectorAll page selViewScore3).find?
        (fun b => pyStrip (innerText b) = "عرض النتيجة") with
    | none => rfl
    | some b =>
      have hb := List.mem_of_find?_eq_some hfind
      have hp := List.find?_some hfind
      exact absurd (of_decide_eq_true hp) (h3 b hb)
  unfold scrape_command
  cases formLoads with
  | false => rfl
  | true => simp [hc]

/-- C4 witness: a concrete page with no reveal control fails terminally
with no artifact, even though the form loaded. -/
theorem C4_witness : scrape_command true true tPage = ⟨.failureNotice, false⟩ :=
  C4_reveal_control_missing_is_fatal true true tPage rfl rfl (by
    intro b hb
    rw [show querySelectorAll tPage selViewScore3 = [] from rfl] at hb
    cases hb)

/- ## C5: a block with zero resolvable options is skipped -/

/-- A question block with zero resolvable option controls. -/
def w5Block : Element := .mk "div" [("role", "listitem")] [] "" false []

/-- A submission control as queried by the source. -/
def w5Btn : Element :=
  .mk "div" [("role", "button"), ("jsname", "V67aGc")] [] "إرسال" false []

def w5Page : Element := .mk "body" [] [] "" false [w5Block, w5Btn]

/-- A button div whose Python-side text read raises (main.py line 245). -/
def w5xBtn : Element := .mk "div" [("role", "button")] [] "" true []

def w5xPage : Element := .mk "body" [] [] "" false [w5Block, w5xBtn]

/-- C5 counterexample: on a page with one zero-option block and a button
div whose text read raises, the raise escapes the submit scan into the
outer catch of main.py line 253, so the function ends with no submission
activation and no missing-submit warning, although the zero-option block
was skipped with its warning. -/
theorem C5_counterexample :
    w5Block ∈ questionBlocks w5xPage ∧ radiosOf w5Block = [] ∧
    NavAction.warnedNoRadios w5Block ∈ fill_second_page w5xPage ∧
    ¬ ((fill_second_page w5xPage).getLast? = some NavAction.clickedSubmit ∨
       (fill_second_page w5xPage).getLast? = some NavAction.warnedNoSubmit) := by
  refine ⟨?_, rfl, ?_, ?_⟩
  · rw [show questionBlocks w5xPage = [w5Block] from rfl]
    exact List.mem_singleton_self _
  · rw [show fill_second_page w5xPage
        = [NavAction.warnedNoRadios w5Block, NavAction.errorSecondPage] from rfl]
    exact List.mem_cons_self _ _
  · rw [show (fill_second_page w5xPage).getLast?
        = some NavAction.errorSecondPage from rfl]
    rintro (h | h) <;> simp at h

/-- C5 (amended): a question block with zero resolvable option controls is
skipped with a logged warning and never aborts processing: every block is
processed and the flow always reaches the submission-control resolution
step (the last performed step is that step: activation, missing-control
warning, or the outer catch of a raise from the resolution scan itself);
when no read raises during that resolution, the submission control is
activated or its absence warned, as originally claimed. -/
theorem C5_zero_option_block_skipped (page q : Element)
    (hq : q ∈ questionBlocks page) (hr : radiosOf q = []) :
    NavAction.warnedNoRadios q ∈ fill_second_page page ∧
    ((fill_second_page page).getLast? = some NavAction.clickedSubmit ∨
     (fill_second_page page).getLast? = some NavAction.warnedNoSubmit ∨
     (fill_second_page page).getLast? = some NavAction.errorSecondPage) ∧
    (findSubmit page ≠ none →
      (fill_second_page page).getLast? = some NavAction.clickedSubmit ∨
      (fill_second_page page).getLast? = some NavAction.warnedNoSubmit) := by
  have hne : (questionBlocks page).isEmpty = false := by
    cases hqq : questionBlocks page with
    | nil => rw [hqq] at hq; cases hq
    | cons a l => rfl
  unfold fill_second_page
  simp only [hne, Bool.false_eq_true, if_false]
  refine ⟨?_, ?_, ?_⟩
  · apply List.mem_append_left
    refine List.mem_map.mpr ⟨q, hq, ?_⟩
    rw [hr]
    rfl
  · cases hfs : findSubmit page with
    | none =>
      right; right
      rw [List.getLast?_concat]
    | some ob =>
      cases ob with
      | none =>
        right; left
        rw [List.getLast?_concat]
      | some b =>
        left
        rw [List.getLast?_concat]
  · intro hns
    cases hfs : findSubmit page with
    | none => exact absurd hfs hns
    | some ob =>
      cases ob with
      | none =>
        right
        rw [List.getLast?_concat]
      | some b =>
        left
        rw [List.getLast?_concat]

/-- C5 witness: a concrete page with one zero-option block and a readable
submission control records the warning, ends with the submission step, and
activates the control since no read raises. -/
theorem C5_witness :
    NavAction.warnedNoRadios w5Block ∈ fill_second_page w5Page ∧
    ((fill_second_page w5Page).getLast? = some NavAction.clickedSubmit ∨
     (fill_second_page w5Page).getLast? = some NavAction.warnedNoSubmit ∨
     (fill_second_page w5Page).getLast? = some NavAction.errorSecondPage) ∧
    (findSubmit w5Page ≠ none →
      (fill_second_page w5Page).getLast? = some NavAction.clickedSubmit ∨
      (fill_second_page w5Page).getLast? = some NavAction.warnedNoSubmit) :=
  C5_zero_option_block_skipped w5Page w5Block (by
    rw [show questionBlocks w5Page = [w5Block] from rfl]
    exact List.mem_singleton_self _) rfl

/- ## C8: JSON round trip -/

theorem decStrList_encode (l : List String) :
    decStrList (l.map Json.str) = some l := by
  induction l with
  | nil => rfl
  | cons s ss ih => simp [decStrList, asStr, ih]

theorem decodeRecord_encodeRecord (r : Record) :
    decodeRecord (encodeRecord r) = some r := by
  cases r with
  | mk qn q ty ch a ex cat =>
    simp [encodeRecord, decodeRecord, getField, List.find?, asStr, asNum,
      asStrList, decStrList_encode]

/-- C8: serializing any ExamResult to the JSON array format (fields
question_number, question, type, choices, answer, exam, category) and
parsing it back yields a structurally identical sequence of records,
field for field. -/
theorem C8_serialization_round_trip (rs : List Record) :
    decodeExam (encodeExam rs) = some rs := by
  induction rs with
  | nil => rfl
  | cons r rest ih =>
    have ih' : decRecList (rest.map encodeRecord) = some rest := ih
    simp [encodeExam, decodeExam, decRecList, decodeRecord_encodeRecord, ih']

/- ## C7: options contain no empty strings, duplicates preserved -/

theorem readTexts_eq : ∀ (es : List Element) (ts : List String),
    readTexts es = some ts → ts = es.map innerText := by
  intro es
  induction es with
  | nil =>
    intro ts h
    simp [readTexts] at h
    subst h
    rfl
  | cons e rest ih =>
    intro ts h
    unfold readTexts at h
    cases hre : readText e with
    | none => rw [hre] at h; simp at h
    | some t =>
      cases hrest : readTexts rest with
      | none => rw [hre, hrest] at h; simp at h
      | some ts' =>
        rw [hre, hrest] at h
        simp only [Option.some.injEq] at h
        have ht : t = innerText e := by
          unfold readText at hre
          cases hb : e.broken with
          | true => rw [hb] at hre; simp at hre
          | false => rw [hb] at hre; simpa using hre.symm
        rw [← h, ht, ih ts' hrest]
        rfl

/-- The collected choice texts are exactly the stripped rendered texts of
the queried elements with the empty ones filtered out, in rendered order
and with duplicate multiplicity preserved. -/
theorem collectTexts_eq {es : List Element} {l : List String}
    (h : collectTexts es = some l) :
    l = (es.map (fun e => pyStrip (innerText e))).filter (fun s => s ≠ "") := by
  unfold collectTexts at h
  obtain ⟨ts, hts, hl⟩ := Option.map_eq_some'.mp h
  rw [← hl, readTexts_eq es ts hts, List.map_map]
  rfl

theorem collectTexts_no_empty {es : List Element} {l : List String}
    (h : collectTexts es = some l) : "" ∉ l := by
  rw [collectTexts_eq h]
  intro hmem
  have := (List.mem_filter.mp hmem).2
  simp at this

theorem readChoices_from_collect {q : Element} {ch : List String}
    (h : readChoices q = some ch) :
    collectTexts (querySelectorAll q selChoice) = some ch ∨
    collectTexts (querySelectorAll q selLabel) = some ch := by
  unfold readChoices at h
  cases h1 : collectTexts (querySelectorAll q selChoice) with
  | none => rw [h1] at h; simp at h
  | some cs1 =>
    rw [h1] at h
    simp only at h
    by_cases he : cs1 = []
    · rw [if_pos he] at h
      right
      exact h
    · rw [if_neg he] at h
      left
      exact h

/-- Every record emitted by the extractor took its choices from a
collection pass. -/
theorem mem_extract_choices {page : Element} {r : Record}
    (h : r ∈ extract_exam_data page) :
    ∃ q, readChoices q = some r.choices := by
  simp only [extract_exam_data] at h
  rw [List.mem_filterMap] at h
  obtain ⟨jq, _, hf⟩ := h
  unfold extractBlock at hf
  obtain ⟨v, hv, rfl⟩ := Option.map_eq_some'.mp hf
  refine ⟨jq.2, ?_⟩
  unfold readBlock at hv
  cases h1 : readQText jq.2 with
  | none => simp [h1] at hv
  | some qText =>
    cases h2 : readChoices jq.2 with
    | none => simp [h1, h2] at hv
    | some ch =>
      cases h3 : getAnswer jq.2 ch with
      | none => simp [h1, h2, h3] at hv
      | some ans =>
        simp only [h1, h2, h3, Option.some.injEq] at hv
        subst hv
        rfl

/-- C7: for every emitted record, the options sequence contains no empty
strings (empty trimmed texts are filtered during collection), while
duplicate non-empty texts are preserved in rendered order (the collected
list is exactly the order- and multiplicity-preserving filter of the
stripped texts of the queried elements). -/
theorem C7_options_no_empty_duplicates_preserved :
    (∀ (page : Element) (r : Record), r ∈ extract_exam_data page → "" ∉ r.choices) ∧
    (∀ (es : List Element) (l : List String), collectTexts es = some l →
      l = (es.map (fun e => pyStrip (innerText e))).filter (fun s => s ≠ "")) := by
  constructor
  · intro page r h
    obtain ⟨q, hq⟩ := mem_extract_choices h
    rcases readChoices_from_collect hq with hc | hc
    · exact collectTexts_no_empty hc
    · exact collectTexts_no_empty hc
  · intro es l h
    exact collectTexts_eq h

/-- C7 witness: on a concrete page the emitted choices contain no empty
string even though the source elements include blank texts. -/
theorem C7_witness :
    "" ∉ (⟨1, "Q1", "اختيار", ["A", "B"], "", "Exam One (Verbal)", "Verbal"⟩ : Record).choices :=
  C7_options_no_empty_duplicates_preserved.1 tPage _ (by decide)

/- ## C3: no correctness signal leaves the answer empty -/

/-- A glyph carries a correctness signal when its first path descendant
has a fill matching the accent-color test of main.py line 97. -/
def glyphOk (s : Element) : Bool :=
  match querySelector s selPath with
  | some p =>
    match getAttr p "fill" with
    | some f => fillMatches f
    | none => false
  | none => false

theorem trySvg_none {anc : List Element} {e : Element} (h : glyphOk e = false) :
    trySvg anc e = none := by
  cases h1 : querySelector e selPath with
  | none => simp [trySvg, h1]
  | some p =>
    cases h2 : getAttr p "fill" with
    | none => simp [trySvg, h1, h2]
    | some f =>
      have hf : fillMatches f = false := by simpa [glyphOk, h1, h2] using h
      simp [trySvg, h1, h2, hf]

theorem matchesSel_selSvg (anc : List Element) (e : Element) :
    matchesSel selSvg anc e = decide (e.tag = "svg") := by
  simp [matchesSel, selSvg, matchesSelComplex, matchesCompound, matchesAtom,
    matchAnc, List.any_cons, List.any_nil, List.all_cons, List.all_nil]

/-- When no glyph in the forest carries a correctness signal, the scan of
main.py lines 91 to 104 never breaks. -/
theorem scanL_none_of_no_glyph : ∀ (n : Nat) (es anc : List Element),
    sizeOf es ≤ n →
    (∀ s ∈ qsaL selSvg anc es, glyphOk s = false) → scanL anc es = none := by
  intro n
  induction n with
  | zero =>
    intro es anc hle _
    cases es with
    | nil => rfl
    | cons e rest =>
      rw [List.cons.sizeOf_spec] at hle
      omega
  | succ n ih =>
    intro es anc hle h
    cases es with
    | nil => rfl
    | cons e rest =>
      cases e with
      | mk t a c o b cs =>
        have hsz : sizeOf cs ≤ n ∧ sizeOf rest ≤ n := by
          rw [List.cons.sizeOf_spec, Element.mk.sizeOf_spec] at hle
          omega
        have hmem1 : ∀ s, s ∈ qsaL selSvg (Element.mk t a c o b cs :: anc) cs →
            s ∈ qsaL selSvg anc (Element.mk t a c o b cs :: rest) := by
          intro s hs
          show s ∈ qsaEl selSvg anc (Element.mk t a c o b cs) ++ qsaL selSvg anc rest
          apply List.mem_append_left
          show s ∈ (if matchesSel selSvg anc (Element.mk t a c o b cs)
              then [Element.mk t a c o b cs] else [])
            ++ qsaL selSvg (Element.mk t a c o b cs :: anc) cs
          exact List.mem_append_right _ hs
        have hmem2 : ∀ s, s ∈ qsaL selSvg anc rest →
            s ∈ qsaL selSvg anc (Element.mk t a c o b cs :: rest) := by
          intro s hs
          show s ∈ qsaEl selSvg anc (Element.mk t a c o b cs) ++ qsaL selSvg anc rest
          exact List.mem_append_right _ hs
        have h1 : scanL (Element.mk t a c o b cs :: anc) cs = none :=
          ih cs _ hsz.1 (fun s hs => h s (hmem1 s hs))
        have h2 : scanL anc rest = none :=
          ih rest anc hsz.2 (fun s hs => h s (hmem2 s hs))
        have hif : (if (Element.mk t a c o b cs).tag = "svg"
            then trySvg anc (Element.mk t a c o b cs) else none) = none := by
          split
          · apply trySvg_none
            apply h
            show Element.mk t a c o b cs ∈
              qsaEl selSvg anc (Element.mk t a c o b cs) ++ qsaL selSvg anc rest
            apply List.mem_append_left
            apply List.mem_append_left
            rw [matchesSel_selSvg]
            simp only [decide_eq_true_eq]
            rw [if_pos (by assumption)]
            exact List.mem_singleton_self _
          · rfl
        show firstSome
            (firstSome
              (if (Element.mk t a c o b cs).tag = "svg"
                then trySvg anc (Element.mk t a c o b cs) else none)
              (scanL (Element.mk t a c o b cs :: anc) cs))
            (scanL anc rest) = none
        rw [hif, h1, h2]
        rfl

/-- When the block has no signalling glyph at all, the scan leaves the
answer empty. -/
theorem svgScan_empty_of_no_glyph {q : Element}
    (h : ∀ s ∈ querySelectorAll q selSvg, glyphOk s = false) : svgScan q = "" := by
  unfold svgScan
  rw [scanL_none_of_no_glyph (sizeOf q.children) q.children [q] le_rfl h]
  rfl

/-- C3: for every question block in which none of the correctness-detection
strategies (accessible-label marker, color-heuristic glyph scan,
correct-answer style class) succeeds, the emitted record has the empty
string as its correct-answer field, regardless of how many options the
block has; it is never defaulted to any option. -/
theorem C3_no_signal_empty_answer (q : Element)
    (h1 : querySelector q selAriaCorrect = none)
    (h2 : ∀ s ∈ querySelectorAll q selSvg, glyphOk s = false)
    (h3 : querySelector q selCorrectClass = none)
    (i : Nat) (t c : String) (r : Record)
    (hr : extractBlock i t c q = some r) : r.answer = "" := by
  have hscan := svgScan_empty_of_no_glyph h2
  have hans : ∀ choices, getAnswer q choices = some "" := by
    intro choices
    unfold getAnswer answerStep1 answerStep2
    simp [h1, h3, hscan]
  unfold extractBlock at hr
  obtain ⟨v, hv, rfl⟩ := Option.map_eq_some'.mp hr
  unfold readBlock at hv
  cases hq1 : readQText q with
  | none => simp [hq1] at hv
  | some qt =>
    cases hq2 : readChoices q with
    | none => simp [hq1, hq2] at hv
    | some ch =>
      simp only [hq1, hq2, hans ch, Option.some.injEq] at hv
      subst hv
      rfl

/-- C3 witness: the concrete signal-free three-element block yields the
empty answer next to its two options. -/
theorem C3_witness :
    (⟨1, "Q1", "اختيار", ["A", "B"], "", "T", "C"⟩ : Record).answer = "" :=
  C3_no_signal_empty_answer tBlock rfl
    (by
      intro s hs
      rw [show querySelectorAll tBlock selSvg = [] from rfl] at hs
      cases hs)
    rfl 1 "T" "C" _ rfl

/- ## C6: a matching glyph inside a label names the answer -/

theorem qsaL_append (sel : Selector) (anc : List Element) :
    ∀ l1 l2, qsaL sel anc (l1 ++ l2) = qsaL sel anc l1 ++ qsaL sel anc l2 := by
  intro l1 l2
  induction l1 with
  | nil => rfl
  | cons e es ih => simp [qsaL, ih, List.append_assoc]

theorem firstSome_assoc {α : Type} (a b c : Option α) :
    firstSome (firstSome a b) c = firstSome a (firstSome b c) := by
  cases a <;> rfl

theorem scanL_append (anc : List Element) :
    ∀ l1 l2, scanL anc (l1 ++ l2) = firstSome (scanL anc l1) (scanL anc l2) := by
  intro l1 l2
  induction l1 with
  | nil => rfl
  | cons e es ih =>
    show firstSome (scanEl anc e) (scanL anc (es ++ l2)) = _
    rw [ih, ← firstSome_assoc]
    rfl

/-- A glyph path with the given fill attribute. -/
def glyphPath (f : String) : Element := .mk "path" [("fill", f)] [] "" false []

/-- A glyph whose only child is its path. -/
def glyphSvg (f : String) : Element := .mk "svg" [] [] "" false [glyphPath f]

/-- A label whose text is Paris and whose only child is the glyph. -/
def glyphLabel (f : String) : Element := .mk "label" [] [] "Paris" false [glyphSvg f]

/-- An option control rendered as a radio div with the given text. -/
def mkOption (s : String) : Element := .mk "div" [("role", "radio")] [] s false []

/-- A question block whose only correctness signal is the glyph with the
given fill nested inside the Paris label, after any number of options. -/
def glyphBlock (f : String) (opts : List String) : Element :=
  .mk "div" [("role", "listitem")] [] "" false (opts.map mkOption ++ [glyphLabel f])

theorem qsaL_opts_aria (opts : List String) (anc : List Element) :
    qsaL selAriaCorrect anc (opts.map mkOption) = [] := by
  induction opts generalizing anc with
  | nil => rfl
  | cons s ss ih =>
    have hm : matchesSel selAriaCorrect anc
        (Element.mk "div" [("role", "radio")] [] s false []) = false := rfl
    simp [qsaL, qsaEl, mkOption, hm, ih]

theorem scanL_opts (opts : List String) (anc : List Element) :
    scanL anc (opts.map mkOption) = none := by
  induction opts generalizing anc with
  | nil => rfl
  | cons s ss ih =>
    show firstSome (scanEl anc (mkOption s)) (scanL anc (ss.map mkOption)) = none
    rw [ih]
    show firstSome (firstSome (if (mkOption s).tag = "svg"
        then trySvg anc (mkOption s) else none) (scanL (mkOption s :: anc) [])) none = none
    rfl

/-- The breaking iteration on the concrete glyph: the fill matches, the
nearest label ancestor is the Paris label, and its stripped text is read. -/
theorem trySvg_glyph (f : String) (anc0 : List Element) (hf : fillMatches f = true) :
    trySvg (glyphLabel f :: anc0) (glyphSvg f) = some "Paris" := by
  show (if fillMatches f = true then some "Paris" else none : Option String) = some "Paris"
  rw [if_pos hf]

/-- C6: for a question block whose only correctness signal is a graphical
glyph with a fill matching the accent test (in particular the exact code
34A853) nested inside a label whose text is Paris, the emitted record has
Paris as its correct-answer field (the text is read from the nearest
label-like ancestor of the matching glyph). -/
theorem C6_glyph_answer_is_label_text (f : String) (opts : List String)
    (hf : fillMatches f = true) (i : Nat) (t c : String) (r : Record)
    (hr : extractBlock i t c (glyphBlock f opts) = some r) :
    r.answer = "Paris" := by
  have ha : querySelector (glyphBlock f opts) selAriaCorrect = none := by
    unfold querySelector
    show (qsaL selAriaCorrect [glyphBlock f opts]
      (opts.map mkOption ++ [glyphLabel f])).head? = none
    rw [qsaL_append, qsaL_opts_aria opts _]
    rw [show qsaL selAriaCorrect [glyphBlock f opts] [glyphLabel f] = [] from rfl]
    rfl
  have hscan : svgScan (glyphBlock f opts) = "Paris" := by
    unfold svgScan
    show (scanL [glyphBlock f opts] (opts.map mkOption ++ [glyphLabel f])).getD "" = _
    rw [scanL_append, scanL_opts opts _]
    have h3 : scanEl [glyphBlock f opts] (glyphLabel f)
        = firstSome none (scanL [glyphLabel f, glyphBlock f opts] [glyphSvg f]) := rfl
    have h5 : scanEl [glyphLabel f, glyphBlock f opts] (glyphSvg f)
        = firstSome (trySvg [glyphLabel f, glyphBlock f opts] (glyphSvg f))
            (scanL [glyphSvg f, glyphLabel f, glyphBlock f opts] [glyphPath f]) := rfl
    have h2 : scanL [glyphBlock f opts] [glyphLabel f] = some "Paris" := by
      show firstSome (scanEl [glyphBlock f opts] (glyphLabel f))
        (scanL [glyphBlock f opts] []) = some "Paris"
      rw [h3]
      rw [show scanL [glyphLabel f, glyphBlock f opts] [glyphSvg f]
          = firstSome (scanEl [glyphLabel f, glyphBlock f opts] (glyphSvg f))
              (scanL [glyphLabel f, glyphBlock f opts] []) from rfl]
      rw [h5, trySvg_glyph f _ hf]
      rfl
    rw [h2]
    rfl
  have hans : ∀ choices, getAnswer (glyphBlock f opts) choices = some "Paris" := by
    intro choices
    unfold getAnswer answerStep1 answerStep2
    simp [ha, hscan]
  unfold extractBlock at hr
  obtain ⟨v, hv, rfl⟩ := Option.map_eq_some'.mp hr
  unfold readBlock at hv
  cases hq1 : readQText (glyphBlock f opts) with
  | none => simp [hq1] at hv
  | some qt =>
    cases hq2 : readChoices (glyphBlock f opts) with
    | none => simp [hq1, hq2] at hv
    | some ch =>
      simp only [hq1, hq2, hans ch, Option.some.injEq] at hv
      subst hv
      rfl

/-- C6 witness: with the exact accent code 34A853 and three options, the
emitted record carries Paris as its answer. -/
theorem C6_witness :
    (⟨1, "", "اختيار", ["London", "Paris", "Berlin"], "Paris", "T", "C"⟩ : Record).answer
      = "Paris" :=
  C6_glyph_answer_is_label_text "#34A853" ["London", "Paris", "Berlin"]
    rfl 1 "T" "C" _ rfl
